import Mathlib

/-!
Verification development for the Agoda-Api-Agent repository.

The definitions below shallowly embed the Python source of
`src/api_agent/agent/rest_agent.py` (nested dotted-path access, the
`poll_until_done` state machine and its JSON-parsing prelude, the
`rest_call` JSON-parsing prelude), `src/api_agent/agent/graphql_agent.py`
(`_format_type`), and — where the module `api_agent/executor.py` is not
present in the source tree — models written from the specification
(`extract_tables_from_response`, `get_table_schema_summary`,
`truncate_for_context`).

JSON values are modeled by the inductive `Json`; numbers are modeled as
integers (no claim under verification involves non-integral numerics).
Python `None` is `Json.null`; Python dicts are association lists in
insertion order (keys unique, as produced by `json.loads`).
-/

/-- A JSON value as handled by the Python code (numbers restricted to
integers; dict = insertion-ordered association list). -/
inductive Json : Type where
  | null : Json
  | bool (b : Bool) : Json
  | num (n : Int) : Json
  | str (s : String) : Json
  | arr (l : List Json) : Json
  | obj (l : List (String × Json)) : Json

mutual

/-- Decidable equality on `Json` (the nested inductive prevents deriving). -/
def decEqJson : (a b : Json) → Decidable (a = b)
  | Json.null, Json.null => isTrue rfl
  | Json.bool a, Json.bool b =>
    if h : a = b then isTrue (by rw [h]) else isFalse (fun he => h (Json.bool.inj he))
  | Json.num a, Json.num b =>
    if h : a = b then isTrue (by rw [h]) else isFalse (fun he => h (Json.num.inj he))
  | Json.str a, Json.str b =>
    if h : a = b then isTrue (by rw [h]) else isFalse (fun he => h (Json.str.inj he))
  | Json.arr a, Json.arr b =>
    match decEqJsonList a b with
    | isTrue h => isTrue (by rw [h])
    | isFalse h => isFalse (fun he => h (Json.arr.inj he))
  | Json.obj a, Json.obj b =>
    match decEqJsonObj a b with
    | isTrue h => isTrue (by rw [h])
    | isFalse h => isFalse (fun he => h (Json.obj.inj he))
  | Json.null, Json.bool _ => isFalse nofun
  | Json.null, Json.num _ => isFalse nofun
  | Json.null, Json.str _ => isFalse nofun
  | Json.null, Json.arr _ => isFalse nofun
  | Json.null, Json.obj _ => isFalse nofun
  | Json.bool _, Json.null => isFalse nofun
  | Json.bool _, Json.num _ => isFalse nofun
  | Json.bool _, Json.str _ => isFalse nofun
  | Json.bool _, Json.arr _ => isFalse nofun
  | Json.bool _, Json.obj _ => isFalse nofun
  | Json.num _, Json.null => isFalse nofun
  | Json.num _, Json.bool _ => isFalse nofun
  | Json.num _, Json.str _ => isFalse nofun
  | Json.num _, Json.arr _ => isFalse nofun
  | Json.num _, Json.obj _ => isFalse nofun
  | Json.str _, Json.null => isFalse nofun
  | Json.str _, Json.bool _ => isFalse nofun
  | Json.str _, Json.num _ => isFalse nofun
  | Json.str _, Json.arr _ => isFalse nofun
  | Json.str _, Json.obj _ => isFalse nofun
  | Json.arr _, Json.null => isFalse nofun
  | Json.arr _, Json.bool _ => isFalse nofun
  | Json.arr _, Json.num _ => isFalse nofun
  | Json.arr _, Json.str _ => isFalse nofun
  | Json.arr _, Json.obj _ => isFalse nofun
  | Json.obj _, Json.null => isFalse nofun
  | Json.obj _, Json.bool _ => isFalse nofun
  | Json.obj _, Json.num _ => isFalse nofun
  | Json.obj _, Json.str _ => isFalse nofun
  | Json.obj _, Json.arr _ => isFalse nofun

/-- Decidable equality on lists of `Json`. -/
def decEqJsonList : (a b : List Json) → Decidable (a = b)
  | [], [] => isTrue rfl
  | [], _ :: _ => isFalse nofun
  | _ :: _, [] => isFalse nofun
  | x :: xs, y :: ys =>
    match decEqJson x y, decEqJsonList xs ys with
    | isTrue h1, isTrue h2 => isTrue (by rw [h1, h2])
    | isFalse h1, _ => isFalse (fun he => h1 (by injection he))
    | isTrue _, isFalse h2 => isFalse (fun he => h2 (by injection he))

/-- Decidable equality on association lists of `Json`. -/
def decEqJsonObj : (a b : List (String × Json)) → Decidable (a = b)
  | [], [] => isTrue rfl
  | [], _ :: _ => isFalse nofun
  | _ :: _, [] => isFalse nofun
  | (k, v) :: xs, (k2, v2) :: ys =>
    if hk : k = k2 then
      match decEqJson v v2, decEqJsonObj xs ys with
      | isTrue h1, isTrue h2 => isTrue (by rw [hk, h1, h2])
      | isFalse h1, _ =>
        isFalse (fun he => by
          injection he with hp ht
          exact h1 (congrArg Prod.snd hp))
      | isTrue _, isFalse h2 => isFalse (fun he => h2 (by injection he))
    else
      isFalse (fun he => by
        injection he with hp ht
        exact hk (congrArg Prod.fst hp))

end

instance : DecidableEq Json := decEqJson

/-- Python truthiness (`bool(x)`) of a JSON value: `None`, `False`, `0`,
`""`, `[]`, `{}` are falsy. -/
def truthy : Json → Bool
  | Json.null => false
  | Json.bool b => b
  | Json.num n => n != 0
  | Json.str s => match s.data with | [] => false | _ => true
  | Json.arr l => match l with | [] => false | _ => true
  | Json.obj l => match l with | [] => false | _ => true

/-- `str.split(sep)` for a single-character separator, over the character
list (kernel-computable counterpart of `String.splitOn`): splitting on a
character that does not occur yields the one-element list, adjacent
separators yield empty segments. -/
def splitChar (sep : Char) : List Char → List String
  | [] => [""]
  | c :: rest =>
    if c = sep then "" :: splitChar sep rest
    else
      match splitChar sep rest with
      | [] => [String.mk [c]]
      | s :: tail => String.mk (c :: s.data) :: tail

/-- Decimal value of a digit string (the `int(key)` applied to a string that
passed `isdigit`). -/
def digitsToNat (cs : List Char) : Nat :=
  cs.foldl (fun acc c => acc * 10 + (c.toNat - 48)) 0

/-- ASCII `str.lower()` (kernel-computable counterpart of
`String.toLower`). -/
def lowerStr (s : String) : String :=
  String.mk (s.data.map fun c =>
    if c.toNat ≥ 65 && c.toNat ≤ 90 then Char.ofNat (c.toNat + 32) else c)

/-- `dict.get(key)`: first (only) binding for `key`, or `none` when the key
is absent. -/
def lookupKey : List (String × Json) → String → Option Json
  | [], _ => none
  | (k, v) :: rest, key => if k = key then some v else lookupKey rest key

/-- `dict[key] = value`: replace the binding in place (order preserved);
append when the key is absent. -/
def setKey : List (String × Json) → String → Json → List (String × Json)
  | [], key, v => [(key, v)]
  | (k, w) :: rest, key, v =>
    if k = key then (key, v) :: rest else (k, w) :: setKey rest key v

/-- `list(data.keys()) if isinstance(data, dict) else []`. -/
def topKeys : Json → List String
  | Json.obj kvs => kvs.map Prod.fst
  | _ => []

/-- Python `str.isdigit()` restricted to ASCII digits (no claim involves
non-ASCII digit characters). -/
def isdigit (s : String) : Bool :=
  match s.data with
  | [] => false
  | cs => cs.all Char.isDigit

/-- One step of `_get_nested_value`'s loop body (rest_agent.py lines 63-75):
the candidate next value for one path segment, before the trailing
`if current is None: return None` check.  A non-container current value,
a non-digit segment on a list, an out-of-range index, and a missing
mapping key all produce `none`. -/
def get_step (current : Json) (key : String) : Option Json :=
  match current with
  | Json.arr l =>
    if isdigit key then l.get? (digitsToNat key.data)
    else none
  | Json.obj kvs => lookupKey kvs key
  | _ => none

/-- The loop of `_get_nested_value` over the split path segments; a step
producing `none` or Python `None` (`Json.null`) short-circuits to `none`. -/
def get_nested_go : Json → List String → Option Json
  | current, [] => some current
  | current, key :: rest =>
    match get_step current key with
    | none => none
    | some Json.null => none
    | some v => get_nested_go v rest

/-- `_get_nested_value(data, path)` (rest_agent.py lines 49-78): dotted-path
extraction; the guard `if not data or not path: return None` uses Python
truthiness. -/
def get_nested_value (data : Json) (path : String) : Option Json :=
  if !truthy data || path = "" then none
  else get_nested_go data (splitChar '.' path.data)

mutual

/-- Python `repr()` of a JSON value (containers as Python prints them;
string escaping beyond wrapping in single quotes is not modeled — no
claim involves quotes inside strings). -/
def pyRepr : Json → String
  | Json.null => "None"
  | Json.bool true => "True"
  | Json.bool false => "False"
  | Json.num n => toString n
  | Json.str s => "\x27" ++ s ++ "\x27"
  | Json.arr l => "[" ++ pyReprItems l ++ "]"
  | Json.obj l => "\x7b" ++ pyReprFields l ++ "\x7d"

/-- Comma-separated `repr`s of list elements. -/
def pyReprItems : List Json → String
  | [] => ""
  | [x] => pyRepr x
  | x :: y :: rest => pyRepr x ++ ", " ++ pyReprItems (y :: rest)

/-- Comma-separated `'key': repr(value)` renderings of dict entries. -/
def pyReprFields : List (String × Json) → String
  | [] => ""
  | [(k, v)] => "\x27" ++ k ++ "\x27: " ++ pyRepr v
  | (k, v) :: e :: rest =>
    "\x27" ++ k ++ "\x27: " ++ pyRepr v ++ ", " ++ pyReprFields (e :: rest)

end

/-- Python `str()` of a JSON value: like `repr` except a top-level string
is returned bare. -/
def pyStr : Json → String
  | Json.str s => s
  | v => pyRepr v

/-- Python `str(current)` where `current` is the result of
`_get_nested_value` (`None` when missing). -/
def pyStrOpt : Option Json → String
  | none => "None"
  | some v => pyStr v

/-- Python `repr()` of a list of strings, as an f-string renders
`list(data.keys())`. -/
def pyReprKeyList (keys : List String) : String :=
  "[" ++ go keys ++ "]"
where
  go : List String → String
    | [] => ""
    | [k] => "\x27" ++ k ++ "\x27"
    | k :: k2 :: rest => "\x27" ++ k ++ "\x27, " ++ go (k2 :: rest)

/-- The in-place body mutation between poll attempts (rest_agent.py lines
406-408):

```
if body_dict.get("polling", \x7b\x7d).get("count") is not None:
    body_dict["polling"]["count"] += 1
```

`Except.error` marks an uncaught Python exception: `.get` on a non-dict
body or non-dict `polling` value raises `AttributeError`, and `+= 1` on a
non-numeric, non-boolean `count` raises `TypeError`.  Python `True += 1`
yields the integer `2`. -/
def incrementPollingCount (body : Json) : Except String Json :=
  match body with
  | Json.obj kvs =>
    match lookupKey kvs "polling" with
    | none => Except.ok (Json.obj kvs)
    | some (Json.obj pkvs) =>
      match lookupKey pkvs "count" with
      | none => Except.ok (Json.obj kvs)
      | some Json.null => Except.ok (Json.obj kvs)
      | some (Json.num n) =>
        Except.ok (Json.obj (setKey kvs "polling"
          (Json.obj (setKey pkvs "count" (Json.num (n + 1))))))
      | some (Json.bool b) =>
        Except.ok (Json.obj (setKey kvs "polling"
          (Json.obj (setKey pkvs "count" (Json.num ((if b then 1 else 0) + 1))))))
      | some _ => Except.error "TypeError: unsupported operand type for +="
    | some _ => Except.error "AttributeError: object has no attribute get"
  | _ => Except.error "AttributeError: object has no attribute get"

/-- `True` iff `incrementPollingCount` does not raise. -/
def incrOk (body : Json) : Bool :=
  match incrementPollingCount body with
  | Except.ok _ => true
  | Except.error _ => false

/-- The value returned by the injected request capability
`execute_request` as the polling loop reads it: the `success` flag, the
`data` payload (`result.get("data", \x7b\x7d)`), and the `error` string. -/
structure ExecResult where
  success : Bool
  data : Json
  error : String

/-- One poll attempt record as appended to the `_rest_calls` log
(rest_agent.py lines 346-356); `body` is the body sent on that attempt
(`none` when the body dict was falsy, mirroring
`body=body_dict if body_dict else None`). -/
structure PollRecord where
  method : String
  path : String
  body : Option Json
  attempt : Nat
deriving DecidableEq

/-- Terminal result of the polling state machine.  `pyError` marks an
uncaught Python exception escaping the tool (the call log keeps the
records already appended). -/
inductive PollOutcome : Type where
  | done (attempts : Nat) (data : Json) : PollOutcome
  | fieldMissing (field : String) (keys : List String) : PollOutcome
  | requestFailed (attempt : Nat) (error : String) : PollOutcome
  | exhausted (attempts : Nat) (last : Option Json) : PollOutcome
  | invalidBody (msg : String) : PollOutcome
  | pyError (msg : String) : PollOutcome
deriving DecidableEq

/-- Per-run configuration of the polling loop: the injected request
capability (a function of the attempt index and the body sent) and the
tool arguments. -/
structure PollCfg where
  req : Nat → Option Json → ExecResult
  method : String
  path : String
  done_field : String
  done_value : String

/-- The `while attempt < max_polls` loop of `poll_until_done`
(rest_agent.py lines 330-416), fuel = `max_polls - attempt`.  Each
iteration: append a record, issue the request, fail terminally on request
failure, extract `done_field`, terminate `FIELD_MISSING` when the value is
missing on attempt 1, terminate `DONE` on case-insensitive string match
with `done_value`, otherwise increment `polling.count` (which can raise)
and continue; out of fuel is `EXHAUSTED` carrying the last observed
value. -/
def pollGo (cfg : PollCfg) :
    Nat → Nat → Json → Option Json → List PollRecord → PollOutcome × List PollRecord
  | 0, attempt, _, current, log => (PollOutcome.exhausted attempt current, log)
  | fuel + 1, attempt, body, _, log =>
    let a := attempt + 1
    let bodySent : Option Json := if truthy body then some body else none
    let log1 := log ++ [⟨cfg.method, cfg.path, bodySent, a⟩]
    let r := cfg.req a bodySent
    if r.success = false then (PollOutcome.requestFailed a r.error, log1)
    else
      let cur := get_nested_value r.data cfg.done_field
      if cur = none ∧ a = 1 then
        (PollOutcome.fieldMissing cfg.done_field (topKeys r.data), log1)
      else if lowerStr (pyStrOpt cur) = lowerStr cfg.done_value then
        (PollOutcome.done a r.data, log1)
      else
        match incrementPollingCount body with
        | Except.error m => (PollOutcome.pyError m, log1)
        | Except.ok body2 => pollGo cfg fuel a body2 cur log1

/-- A caller-supplied JSON fragment (`path_params`, `query_params`,
`body`) classified by what `json.loads` does to it: absent/empty string,
malformed (raises `json.JSONDecodeError` with message `msg`), or parsed. -/
inductive FragInput : Type where
  | empty : FragInput
  | malformed (msg : String) : FragInput
  | parsed (j : Json) : FragInput

/-- `json.loads(frag) if frag else None`: `Except.error` is the raised
decode exception. -/
def parseFrag : FragInput → Except String (Option Json)
  | FragInput.empty => Except.ok none
  | FragInput.malformed msg => Except.error msg
  | FragInput.parsed j => Except.ok (some j)

/-- The `poll_until_done` tool (rest_agent.py lines 286-416): parse
`path_params` and `query_params` (lines 313-314, a malformed fragment
raises out of the tool — `pyError`), parse `body` inside `try/except`
(lines 315-323, a malformed body returns the structured
`Invalid body JSON` failure before any attempt), then run the polling
loop starting at attempt 0 with an empty log. -/
def poll_until_done (req : Nat → Option Json → ExecResult)
    (method path done_field done_value : String)
    (body path_params query_params : FragInput)
    (maxPolls : Nat) : PollOutcome × List PollRecord :=
  match parseFrag path_params with
  | Except.error m => (PollOutcome.pyError m, [])
  | Except.ok _ =>
    match parseFrag query_params with
    | Except.error m => (PollOutcome.pyError m, [])
    | Except.ok _ =>
      match body with
      | FragInput.malformed m =>
        (PollOutcome.invalidBody ("Invalid body JSON: " ++ m), [])
      | FragInput.empty =>
        pollGo ⟨req, method, path, done_field, done_value⟩
          maxPolls 0 (Json.obj []) none []
      | FragInput.parsed j =>
        pollGo ⟨req, method, path, done_field, done_value⟩
          maxPolls 0 j none []

/-- Outcome of the JSON-parsing prelude of the `rest_call` tool. -/
inductive RestCallParse : Type where
  | raised (msg : String) : RestCallParse
  | proceeds (pp qp bd : Option Json) : RestCallParse
deriving DecidableEq

/-- The JSON-parsing prelude of `rest_call` (rest_agent.py lines 203-206):
all three `json.loads` calls are unprotected, so the first malformed
fragment raises `json.JSONDecodeError` out of the tool. -/
def rest_call_parse (path_params query_params body : FragInput) : RestCallParse :=
  match parseFrag path_params with
  | Except.error m => RestCallParse.raised m
  | Except.ok pp =>
    match parseFrag query_params with
    | Except.error m => RestCallParse.raised m
    | Except.ok qp =>
      match parseFrag body with
      | Except.error m => RestCallParse.raised m
      | Except.ok bd => RestCallParse.proceeds pp qp bd

/-- The error string built on poll-attempt exhaustion (rest_agent.py line
413), right-nested for reasoning about its parts. -/
def renderExhaustedError (maxPolls : Nat) (field value : String) (last : Option Json) :
    String :=
  "max_polls (" ++ (toString maxPolls ++ (") exceeded. Last " ++ (field ++
    (" value: " ++ (pyStrOpt last ++ (" (expected: " ++ (value ++ ")")))))))

/-- The error string built when `done_field` is absent from the first
response (rest_agent.py line 376), right-nested for reasoning about its
parts. -/
def renderFieldMissingError (field : String) (keys : List String) : String :=
  "done_field \x27" ++ (field ++ ("\x27 not found in response. Available keys: " ++
    pyReprKeyList keys))

/-- `sub` occurs verbatim inside `s`. -/
def Mentions (s sub : String) : Prop := ∃ pre post, s = pre ++ (sub ++ post)

/-- A GraphQL introspection type reference as `_format_type` traverses it:
`nullRef` is an absent/`None` reference, `node kind name ofType` a dict
with those entries (`none` = key absent or `None`).  The Python guard
`if not t` also catches the empty dict `\x7b\x7d`, which renders
identically to `node none none nullRef`. -/
inductive GqlRef : Type where
  | nullRef : GqlRef
  | node (kind : Option String) (name : Option String) (ofType : GqlRef) : GqlRef
deriving DecidableEq

/-- `_format_type` (graphql_agent.py lines 47-59): fold a type reference to
compact notation, `NON_NULL` as a trailing `!`, `LIST` as surrounding
brackets, a bare type as its name (`name or "?"`), an absent/empty
reference as `?`. -/
def format_type : GqlRef → String
  | GqlRef.nullRef => "?"
  | GqlRef.node kind name inner =>
    if kind = some "NON_NULL" then format_type inner ++ "!"
    else if kind = some "LIST" then "[" ++ format_type inner ++ "]"
    else
      match name with
      | some s => if s = "" then "?" else s
      | none => "?"

mutual

/-- `json.dumps` with its default separators (`", "` and `": "`); string
escaping beyond wrapping in double quotes is not modeled (no claim
involves quotes or backslashes inside strings). -/
def jsonDumps : Json → String
  | Json.null => "null"
  | Json.bool true => "true"
  | Json.bool false => "false"
  | Json.num n => toString n
  | Json.str s => "\"" ++ s ++ "\""
  | Json.arr l => "[" ++ jsonDumpsItems l ++ "]"
  | Json.obj l => "\x7b" ++ jsonDumpsFields l ++ "\x7d"

/-- Comma-separated serializations of array elements. -/
def jsonDumpsItems : List Json → String
  | [] => ""
  | [x] => jsonDumps x
  | x :: y :: rest => jsonDumps x ++ ", " ++ jsonDumpsItems (y :: rest)

/-- Comma-separated `"key": value` serializations of object entries. -/
def jsonDumpsFields : List (String × Json) → String
  | [] => ""
  | [(k, v)] => "\"" ++ k ++ "\": " ++ jsonDumps v
  | (k, v) :: e :: rest =>
    "\"" ++ k ++ "\": " ++ jsonDumps v ++ ", " ++ jsonDumpsFields (e :: rest)

end

/-- `json.dumps` of a dataset (a Python list of records). -/
def dumpsList (l : List Json) : String := "[" ++ jsonDumpsItems l ++ "]"

mutual

/-- Modelled from the spec: the per-column storage-type label of §4.2
(`api_agent/executor.py` is not in the source tree).  Labels follow the
DuckDB names the tests of `get_table_schema_summary` expect (`BIGINT`,
`VARCHAR`, `BOOLEAN`, nested `STRUCT(...)`). -/
def duckType : Json → String
  | Json.null => "NULL"
  | Json.bool _ => "BOOLEAN"
  | Json.num _ => "BIGINT"
  | Json.str _ => "VARCHAR"
  | Json.arr _ => "LIST"
  | Json.obj kvs => "STRUCT(" ++ duckTypeFields kvs ++ ")"

/-- Modelled from the spec: recursively typed struct fields of §4.2. -/
def duckTypeFields : List (String × Json) → String
  | [] => ""
  | [(k, v)] => k ++ " " ++ duckType v
  | (k, v) :: e :: rest => k ++ " " ++ duckType v ++ ", " ++ duckTypeFields (e :: rest)

end

/-- A Schema Summary (spec §3, §4.2): row count, rendered column types,
and a hint referencing the dataset name. -/
structure TableSummary where
  rows : Nat
  schema : String
  hint : String
deriving DecidableEq

/-- Modelled from the spec: the rendered `col_name TYPE, ...` schema of one
record (spec §4.2; column types inferred from the first record). -/
def schemaOfRecord : Json → String
  | Json.obj kvs => duckTypeFields kvs
  | v => duckType v

/-- Modelled from the spec: `get_table_schema_summary(data, name)` of
`api_agent/executor.py` (not in the source tree), per spec §4.2: an empty
dataset has `rows=0` and an empty schema; otherwise `rows` is the record
count and the schema is rendered from the records; the hint references
the dataset name. -/
def get_table_schema_summary (data : List Json) (name : String) : TableSummary :=
  match data with
  | [] => ⟨0, "", "Query table " ++ name ++ " with sql_query"⟩
  | first :: rest =>
    ⟨(first :: rest).length, schemaOfRecord first,
      "Query table " ++ name ++ " with sql_query"⟩

/-- First direct value of a mapping that is a sequence (spec §4.1 rule 2a,
stable iteration order). -/
def firstArrValue : List (String × Json) → Option (List Json)
  | [] => none
  | (_, Json.arr l) :: _ => some l
  | _ :: rest => firstArrValue rest

/-- Modelled from the spec: `extract_tables_from_response(data, name)` of
`api_agent/executor.py` (not in the source tree), per spec §4.1: an array
becomes the dataset under `name` (no summary); a mapping yields its first
sequence-valued direct value (no summary, empty sequences included), or —
when no direct value is a sequence — the whole mapping wrapped as a
single-record dataset with a summary; any other value yields an empty
registry and no summary. -/
def extract_tables_from_response (data : Json) (name : String) :
    List (String × List Json) × Option TableSummary :=
  match data with
  | Json.arr l => ([(name, l)], none)
  | Json.obj kvs =>
    match firstArrValue kvs with
    | some l => ([(name, l)], none)
    | none => ([(name, [Json.obj kvs])],
        some (get_table_schema_summary [Json.obj kvs] name))
  | _ => ([], none)

/-- Modelled from the spec: the monotonic scan of §4.3 — keep accumulating
records while the serialization of the accumulated list stays within the
budget, stop at the first record that would exceed it (never split a
record). -/
def takeWithin (maxChars : Nat) : List Json → List Json → List Json
  | acc, [] => acc
  | acc, r :: rest =>
    if (dumpsList (acc ++ [r])).length ≤ maxChars then
      takeWithin maxChars (acc ++ [r]) rest
    else acc

/-- Result shape of `truncate_for_context` (spec §4.3); `showing`,
`schema` and `hint` are present only in the truncated case. -/
structure TruncResult where
  truncated : Bool
  table : String
  rows : Nat
  data : List Json
  showing : Option Nat
  schema : Option String
  hint : Option String
deriving DecidableEq

/-- Modelled from the spec: `truncate_for_context(data, name, max_chars)`
of `api_agent/executor.py` (not in the source tree), per spec §4.3: if the
serialized dataset fits the budget (inclusive boundary) return it
unchanged and untruncated; otherwise return the longest prefix of whole
records whose serialization stays within the budget, `showing` = its
length, and a Schema Summary computed over the full dataset. -/
def truncate_for_context (data : List Json) (name : String) (maxChars : Nat) :
    TruncResult :=
  if (dumpsList data).length ≤ maxChars then
    ⟨false, name, data.length, data, none, none, none⟩
  else
    let shown := takeWithin maxChars [] data
    let s := get_table_schema_summary data name
    ⟨true, name, data.length, shown, some shown.length, some s.schema,
      some ("Use sql_query on table " ++ name ++ " to see more rows")⟩

theorem mentions_of_eq (s pre sub post : String) (h : s = pre ++ (sub ++ post)) :
    Mentions s sub :=
  ⟨pre, post, h⟩

theorem lookupKey_setKey_self (kvs : List (String × Json)) (k : String) (v : Json) :
    lookupKey (setKey kvs k v) k = some v := by
  induction kvs with
  | nil => simp [setKey, lookupKey]
  | cons kv rest ih =>
    obtain ⟨k2, w⟩ := kv
    by_cases hk : k2 = k
    · simp [setKey, hk, lookupKey]
    · simp [setKey, hk, lookupKey, ih]

/-- If the in-place increment succeeds, its result cannot raise on the next
increment either. -/
theorem incrOk_of_increment_ok (b b2 : Json)
    (h : incrementPollingCount b = Except.ok b2) : incrOk b2 = true := by
  cases b with
  | null => simp [incrementPollingCount] at h
  | bool bb => simp [incrementPollingCount] at h
  | num n => simp [incrementPollingCount] at h
  | str s => simp [incrementPollingCount] at h
  | arr l => simp [incrementPollingCount] at h
  | obj kvs =>
    cases hp : lookupKey kvs "polling" with
    | none =>
      simp only [incrementPollingCount, hp, Except.ok.injEq] at h
      subst h
      simp [incrOk, incrementPollingCount, hp]
    | some pv =>
      cases pv with
      | null => simp [incrementPollingCount, hp] at h
      | bool bb => simp [incrementPollingCount, hp] at h
      | num n => simp [incrementPollingCount, hp] at h
      | str s => simp [incrementPollingCount, hp] at h
      | arr l => simp [incrementPollingCount, hp] at h
      | obj pkvs =>
        cases hc : lookupKey pkvs "count" with
        | none =>
          simp only [incrementPollingCount, hp, hc, Except.ok.injEq] at h
          subst h
          simp [incrOk, incrementPollingCount, hp, hc]
        | some cv =>
          cases cv with
          | null =>
            simp only [incrementPollingCount, hp, hc, Except.ok.injEq] at h
            subst h
            simp [incrOk, incrementPollingCount, hp, hc]
          | num n =>
            simp only [incrementPollingCount, hp, hc, Except.ok.injEq] at h
            subst h
            simp [incrOk, incrementPollingCount, lookupKey_setKey_self]
          | bool bb =>
            simp only [incrementPollingCount, hp, hc, Except.ok.injEq] at h
            subst h
            simp [incrOk, incrementPollingCount, lookupKey_setKey_self]
          | str s => simp [incrementPollingCount, hp, hc] at h
          | arr l => simp [incrementPollingCount, hp, hc] at h
          | obj l => simp [incrementPollingCount, hp, hc] at h

/-- A failing request terminates the run but its attempt record is still
appended first. -/
theorem pollGo_step_requestFailed (cfg : PollCfg) (fuel attempt : Nat) (body : Json)
    (cur : Option Json) (log : List PollRecord)
    (hs : (cfg.req (attempt + 1) (if truthy body then some body else none)).success = false) :
    pollGo cfg (fuel + 1) attempt body cur log =
      (PollOutcome.requestFailed (attempt + 1)
        (cfg.req (attempt + 1) (if truthy body then some body else none)).error,
       log ++ [⟨cfg.method, cfg.path, (if truthy body then some body else none), attempt + 1⟩]) := by
  simp only [pollGo, hs, if_pos]

/-- A successful attempt whose extracted value is not missing-on-first and
matches `done_value` case-insensitively terminates `DONE` at this attempt. -/
theorem pollGo_step_done (cfg : PollCfg) (fuel attempt : Nat) (body : Json)
    (cur : Option Json) (log : List PollRecord)
    (hs : (cfg.req (attempt + 1) (if truthy body then some body else none)).success = true)
    (hnm : ¬(get_nested_value
        (cfg.req (attempt + 1) (if truthy body then some body else none)).data
        cfg.done_field = none ∧ attempt + 1 = 1))
    (hd : lowerStr (pyStrOpt (get_nested_value
        (cfg.req (attempt + 1) (if truthy body then some body else none)).data
        cfg.done_field)) = lowerStr cfg.done_value) :
    pollGo cfg (fuel + 1) attempt body cur log =
      (PollOutcome.done (attempt + 1)
        (cfg.req (attempt + 1) (if truthy body then some body else none)).data,
       log ++ [⟨cfg.method, cfg.path, (if truthy body then some body else none), attempt + 1⟩]) := by
  simp only [pollGo, hs]
  rw [if_neg (by simp), if_neg hnm, if_pos hd]

/-- A successful attempt whose extracted value neither fires the
first-attempt missing check nor matches `done_value` increments the body
and continues with the next attempt. -/
theorem pollGo_step_continue (cfg : PollCfg) (fuel attempt : Nat) (body body2 : Json)
    (cur : Option Json) (log : List PollRecord)
    (hs : (cfg.req (attempt + 1) (if truthy body then some body else none)).success = true)
    (hnm : ¬(get_nested_value
        (cfg.req (attempt + 1) (if truthy body then some body else none)).data
        cfg.done_field = none ∧ attempt + 1 = 1))
    (hnd : lowerStr (pyStrOpt (get_nested_value
        (cfg.req (attempt + 1) (if truthy body then some body else none)).data
        cfg.done_field)) ≠ lowerStr cfg.done_value)
    (hinc : incrementPollingCount body = Except.ok body2) :
    pollGo cfg (fuel + 1) attempt body cur log =
      pollGo cfg fuel (attempt + 1) body2
        (get_nested_value
          (cfg.req (attempt + 1) (if truthy body then some body else none)).data
          cfg.done_field)
        (log ++ [⟨cfg.method, cfg.path, (if truthy body then some body else none),
          attempt + 1⟩]) := by
  simp only [pollGo, hs, hinc]
  rw [if_neg (by simp), if_neg hnm, if_neg hnd]

/-- The polling loop appends at most `fuel` further attempt records. -/
theorem pollGo_log_length_le (cfg : PollCfg) :
    ∀ fuel attempt body cur log,
    (pollGo cfg fuel attempt body cur log).2.length ≤ log.length + fuel := by
  intro fuel
  induction fuel with
  | zero =>
    intro attempt body cur log
    simp [pollGo]
  | succ n ih =>
    intro attempt body cur log
    simp only [pollGo]
    by_cases hs : (cfg.req (attempt + 1)
        (if truthy body then some body else none)).success = false
    · simp [hs]
    · simp only [hs, if_false]
      rw [if_neg (by simp [hs])]
      by_cases hnm : get_nested_value
          (cfg.req (attempt + 1) (if truthy body then some body else none)).data
          cfg.done_field = none ∧ attempt + 1 = 1
      · rw [if_pos hnm]
        simp
      · rw [if_neg hnm]
        by_cases hd : lowerStr (pyStrOpt (get_nested_value
            (cfg.req (attempt + 1) (if truthy body then some body else none)).data
            cfg.done_field)) = lowerStr cfg.done_value
        · rw [if_pos hd]
          simp
        · rw [if_neg hd]
          cases hinc : incrementPollingCount body with
          | error m =>
            simp
          | ok body2 =>
            have := ih (attempt + 1) body2
              (get_nested_value
                (cfg.req (attempt + 1) (if truthy body then some body else none)).data
                cfg.done_field)
              (log ++ [⟨cfg.method, cfg.path,
                (if truthy body then some body else none), attempt + 1⟩])
            simp at this
            simp
            omega

/-- Whenever the polling loop terminates `DONE`, the value extracted at
`done_field` from the final response compares equal, lowercased, to
`done_value`. -/
theorem pollGo_done_match (cfg : PollCfg) :
    ∀ fuel attempt body cur log a d l,
    pollGo cfg fuel attempt body cur log = (PollOutcome.done a d, l) →
    lowerStr (pyStrOpt (get_nested_value d cfg.done_field)) = lowerStr cfg.done_value := by
  intro fuel
  induction fuel with
  | zero =>
    intro attempt body cur log a d l h
    simp [pollGo] at h
  | succ n ih =>
    intro attempt body cur log a d l h
    simp only [pollGo] at h
    by_cases hs : (cfg.req (attempt + 1)
        (if truthy body then some body else none)).success = false
    · simp [hs] at h
    · rw [if_neg (by simp [hs])] at h
      by_cases hnm : get_nested_value
          (cfg.req (attempt + 1) (if truthy body then some body else none)).data
          cfg.done_field = none ∧ attempt + 1 = 1
      · rw [if_pos hnm] at h
        simp at h
      · rw [if_neg hnm] at h
        by_cases hd : lowerStr (pyStrOpt (get_nested_value
            (cfg.req (attempt + 1) (if truthy body then some body else none)).data
            cfg.done_field)) = lowerStr cfg.done_value
        · rw [if_pos hd] at h
          simp at h
          rw [← h.1.2]
          exact hd
        · rw [if_neg hd] at h
          cases hinc : incrementPollingCount body with
          | error m =>
            rw [hinc] at h
            simp at h
          | ok body2 =>
            rw [hinc] at h
            exact ih _ _ _ _ _ _ _ h

/-- After the first attempt the loop can never terminate `FIELD_MISSING`. -/
theorem pollGo_no_fieldMissing_after_first (cfg : PollCfg) :
    ∀ fuel attempt body cur log f ks,
    1 ≤ attempt →
    (pollGo cfg fuel attempt body cur log).1 ≠ PollOutcome.fieldMissing f ks := by
  intro fuel
  induction fuel with
  | zero =>
    intro attempt body cur log f ks _ h
    simp [pollGo] at h
  | succ n ih =>
    intro attempt body cur log f ks ha h
    simp only [pollGo] at h
    by_cases hs : (cfg.req (attempt + 1)
        (if truthy body then some body else none)).success = false
    · simp [hs] at h
    · rw [if_neg (by simp [hs])] at h
      rw [if_neg (by rintro ⟨_, h1⟩; omega)] at h
      by_cases hd : lowerStr (pyStrOpt (get_nested_value
          (cfg.req (attempt + 1) (if truthy body then some body else none)).data
          cfg.done_field)) = lowerStr cfg.done_value
      · rw [if_pos hd] at h
        simp at h
      · rw [if_neg hd] at h
        cases hinc : incrementPollingCount body with
        | error m =>
          rw [hinc] at h
          simp at h
        | ok body2 =>
          rw [hinc] at h
          exact ih _ _ _ _ f ks (by omega) h

/-- A run whose remaining requests all succeed with values that never match
`done_value` (and whose first response carries the field, and whose body
never raises on increment) runs through all remaining attempts and
terminates `EXHAUSTED` carrying the last observed value. -/
theorem pollGo_exhausts (cfg : PollCfg) (N : Nat) :
    ∀ fuel attempt body cur log,
    attempt + fuel = N →
    incrOk body = true →
    (∀ a b, attempt < a → a ≤ N → (cfg.req a b).success = true) →
    (∀ a b, attempt < a → a ≤ N →
      lowerStr (pyStrOpt (get_nested_value (cfg.req a b).data cfg.done_field)) ≠
        lowerStr cfg.done_value) →
    (∀ b, attempt = 0 → 1 ≤ N →
      get_nested_value (cfg.req 1 b).data cfg.done_field ≠ none) →
    ∃ last,
      (pollGo cfg fuel attempt body cur log).1 = PollOutcome.exhausted N last ∧
      (pollGo cfg fuel attempt body cur log).2.length = log.length + fuel ∧
      (fuel = 0 → last = cur) ∧
      (1 ≤ fuel → ∃ b, last = get_nested_value (cfg.req N b).data cfg.done_field) := by
  intro fuel
  induction fuel with
  | zero =>
    intro attempt body cur log hN _ _ _ _
    have hA : attempt = N := by omega
    subst hA
    exact ⟨cur, by simp [pollGo], by simp [pollGo], fun _ => rfl, by omega⟩
  | succ n ih =>
    intro attempt body cur log hN hok hsucc hmiss hfield
    have hs : (cfg.req (attempt + 1)
        (if truthy body then some body else none)).success = true :=
      hsucc (attempt + 1) _ (by omega) (by omega)
    have hnd : lowerStr (pyStrOpt (get_nested_value
        (cfg.req (attempt + 1) (if truthy body then some body else none)).data
        cfg.done_field)) ≠ lowerStr cfg.done_value :=
      hmiss (attempt + 1) _ (by omega) (by omega)
    have hnm : ¬(get_nested_value
        (cfg.req (attempt + 1) (if truthy body then some body else none)).data
        cfg.done_field = none ∧ attempt + 1 = 1) := by
      rintro ⟨hc, h1⟩
      have h0 : attempt = 0 := by omega
      subst h0
      exact hfield _ rfl (by omega) hc
    obtain ⟨body2, hinc⟩ : ∃ b2, incrementPollingCount body = Except.ok b2 := by
      cases hi : incrementPollingCount body with
      | ok b2 => exact ⟨b2, rfl⟩
      | error m => simp [incrOk, hi] at hok
    have hstep := pollGo_step_continue cfg n attempt body body2 cur log hs hnm hnd hinc
    have hok2 := incrOk_of_increment_ok body body2 hinc
    obtain ⟨last, h1, h2, h3, h4⟩ := ih (attempt + 1) body2
      (get_nested_value
        (cfg.req (attempt + 1) (if truthy body then some body else none)).data
        cfg.done_field)
      (log ++ [⟨cfg.method, cfg.path, (if truthy body then some body else none),
        attempt + 1⟩])
      (by omega) hok2
      (fun a b h1 h2 => hsucc a b (by omega) h2)
      (fun a b h1 h2 => hmiss a b (by omega) h2)
      (fun b h0 _ => by omega)
    refine ⟨last, ?_, ?_, ?_, ?_⟩
    · rw [hstep]
      exact h1
    · rw [hstep]
      rw [h2]
      simp
      omega
    · intro h
      cases h
    · intro _
      rcases Nat.eq_zero_or_pos n with hn0 | hn1
      · subst hn0
        refine ⟨(if truthy body then some body else none), ?_⟩
        rw [h3 rfl]
        have hAN : attempt + 1 = N := by omega
        rw [hAN]
      · exact h4 hn1

theorem mentions_here (pre sub post : String) : Mentions (pre ++ (sub ++ post)) sub :=
  ⟨pre, post, rfl⟩

theorem mentions_start (sub post : String) : Mentions (sub ++ post) sub :=
  ⟨"", post, rfl⟩

theorem mentions_left (a t sub : String) (h : Mentions t sub) : Mentions (a ++ t) sub := by
  obtain ⟨p, q, hp⟩ := h
  exact ⟨a ++ p, q, by rw [hp, String.append_assoc]⟩

/-- The no-arr hypothesis propagates through `firstArrValue`. -/
theorem firstArrValue_eq_none (kvs : List (String × Json))
    (h : ∀ kv ∈ kvs, ∀ m, kv.2 ≠ Json.arr m) : firstArrValue kvs = none := by
  induction kvs with
  | nil => rfl
  | cons kv rest ih =>
    obtain ⟨k, v⟩ := kv
    have hrest : ∀ kv ∈ rest, ∀ m, kv.2 ≠ Json.arr m :=
      fun kv hkv m => h kv (by simp [hkv]) m
    cases v with
    | arr m => exact absurd rfl (h (k, Json.arr m) (by simp) m)
    | null => simpa [firstArrValue] using ih hrest
    | bool b => simpa [firstArrValue] using ih hrest
    | num n => simpa [firstArrValue] using ih hrest
    | str s => simpa [firstArrValue] using ih hrest
    | obj l => simpa [firstArrValue] using ih hrest

/-- `firstArrValue` returns the first sequence-valued entry. -/
theorem firstArrValue_first (pre : List (String × Json)) (k : String)
    (l : List Json) (post : List (String × Json))
    (h : ∀ kv ∈ pre, ∀ m, kv.2 ≠ Json.arr m) :
    firstArrValue (pre ++ (k, Json.arr l) :: post) = some l := by
  induction pre with
  | nil => rfl
  | cons kv rest ih =>
    obtain ⟨k2, v⟩ := kv
    have hrest : ∀ kv ∈ rest, ∀ m, kv.2 ≠ Json.arr m :=
      fun kv hkv m => h kv (by simp [hkv]) m
    cases v with
    | arr m => exact absurd rfl (h (k2, Json.arr m) (by simp) m)
    | null => simpa [firstArrValue] using ih hrest
    | bool b => simpa [firstArrValue] using ih hrest
    | num n => simpa [firstArrValue] using ih hrest
    | str s => simpa [firstArrValue] using ih hrest
    | obj l2 => simpa [firstArrValue] using ih hrest

/-- The scan keeps a prefix of the dataset appended to the accumulator. -/
theorem takeWithin_prefix (maxChars : Nat) :
    ∀ l acc, ∃ k, takeWithin maxChars acc l = acc ++ l.take k := by
  intro l
  induction l with
  | nil =>
    intro acc
    exact ⟨0, by simp [takeWithin]⟩
  | cons r rest ih =>
    intro acc
    by_cases h : (dumpsList (acc ++ [r])).length ≤ maxChars
    · obtain ⟨k, hk⟩ := ih (acc ++ [r])
      refine ⟨k + 1, ?_⟩
      rw [takeWithin, if_pos h, hk]
      simp
    · exact ⟨0, by simp [takeWithin, h]⟩

/-- If the accumulator already fits the budget, the scan result fits. -/
theorem takeWithin_fits (maxChars : Nat) :
    ∀ l acc, (dumpsList acc).length ≤ maxChars →
      (dumpsList (takeWithin maxChars acc l)).length ≤ maxChars := by
  intro l
  induction l with
  | nil =>
    intro acc h
    simpa [takeWithin] using h
  | cons r rest ih =>
    intro acc h
    by_cases hc : (dumpsList (acc ++ [r])).length ≤ maxChars
    · rw [takeWithin, if_pos hc]
      exact ih _ hc
    · rw [takeWithin, if_neg hc]
      exact h

/-- Claim C5: dotted-path addressing — a non-negative integer segment
indexes a sequence (out-of-range is missing), any other segment indexes a
mapping key, and a missing key, out-of-range index, non-container
intermediate or null intermediate yields missing rather than an error;
`get("a.b.c.d", ...)` is `42` and `get("trips.0.id", ...)` is `1`. -/
theorem nested_value_dotted_path :
    (get_nested_value
        (Json.obj [("a", Json.obj [("b", Json.obj [("c",
          Json.obj [("d", Json.num 42)])])])]) "a.b.c.d" = some (Json.num 42)) ∧
    (get_nested_value
        (Json.obj [("trips", Json.arr [Json.obj [("id", Json.num 1)],
          Json.obj [("id", Json.num 2)]])]) "trips.0.id" = some (Json.num 1)) ∧
    (∀ l key, isdigit key = true →
      get_step (Json.arr l) key = l.get? (digitsToNat key.data)) ∧
    (∀ (l : List Json) key rest, isdigit key = true →
      l.length ≤ digitsToNat key.data →
      get_nested_go (Json.arr l) (key :: rest) = none) ∧
    (∀ kvs key, get_step (Json.obj kvs) key = lookupKey kvs key) ∧
    (∀ kvs key rest, lookupKey kvs key = none →
      get_nested_go (Json.obj kvs) (key :: rest) = none) ∧
    (∀ key rest, get_nested_go Json.null (key :: rest) = none) ∧
    (∀ b key rest, get_nested_go (Json.bool b) (key :: rest) = none) ∧
    (∀ n key rest, get_nested_go (Json.num n) (key :: rest) = none) ∧
    (∀ s key rest, get_nested_go (Json.str s) (key :: rest) = none) ∧
    (∀ c key rest, get_step c key = some Json.null →
      get_nested_go c (key :: rest) = none) := by
  refine ⟨by decide, by decide, ?_, ?_, ?_, ?_, ?_, ?_, ?_, ?_, ?_⟩
  · intro l key h
    simp [get_step, h]
  · intro l key rest h hlen
    simp [get_nested_go, get_step, h, List.getElem?_eq_none hlen]
  · intro kvs key
    simp [get_step]
  · intro kvs key rest h
    simp [get_nested_go, get_step, h]
  · intro key rest
    simp [get_nested_go, get_step]
  · intro b key rest
    simp [get_nested_go, get_step]
  · intro n key rest
    simp [get_nested_go, get_step]
  · intro s key rest
    simp [get_nested_go, get_step]
  · intro c key rest h
    simp [get_nested_go, h]

theorem nested_value_dotted_path_witness :
    get_nested_go (Json.arr [Json.num 7]) ["5"] = none :=
  nested_value_dotted_path.2.2.2.1 [Json.num 7] "5" [] (by decide) (by decide)

/-- Claim C9: GraphQL type-reference folding — a bare named type renders
as its name, `NON_NULL` appends a trailing bang, `LIST` surrounds with
brackets recursing through `ofType`, an absent or empty reference renders
as a question mark; the five-level `NON_NULL`/`LIST` nest renders as
`[[X!]!]!`. -/
theorem format_type_folding :
    (∀ k s inner, k ≠ some "NON_NULL" → k ≠ some "LIST" → s ≠ "" →
      format_type (GqlRef.node k (some s) inner) = s) ∧
    (∀ name inner, format_type (GqlRef.node (some "NON_NULL") name inner) =
      format_type inner ++ "!") ∧
    (∀ name inner, format_type (GqlRef.node (some "LIST") name inner) =
      "[" ++ format_type inner ++ "]") ∧
    format_type GqlRef.nullRef = "?" ∧
    format_type (GqlRef.node none none GqlRef.nullRef) = "?" ∧
    format_type (GqlRef.node (some "NON_NULL") none (GqlRef.node (some "LIST") none
      (GqlRef.node (some "NON_NULL") none (GqlRef.node (some "LIST") none
        (GqlRef.node (some "NON_NULL") none
          (GqlRef.node (some "OBJECT") (some "X") GqlRef.nullRef)))))) = "[[X!]!]!" := by
  refine ⟨?_, ?_, ?_, by decide, by decide, by decide⟩
  · intro k s inner h1 h2 h3
    simp [format_type, h1, h2, h3]
  · intro name inner
    simp [format_type]
  · intro name inner
    simp [format_type]

theorem format_type_folding_witness :
    format_type (GqlRef.node (some "SCALAR") (some "Int") GqlRef.nullRef) = "Int" :=
  format_type_folding.1 (some "SCALAR") "Int" GqlRef.nullRef (by decide) (by decide)
    (by decide)

/-- Claim C7: table-extraction classification — an array becomes the
dataset under the given name with no summary; a mapping with at least one
sequence-valued direct value yields the first encountered sequence (even
empty) with no summary; a mapping with none yields the whole mapping
wrapped as a single record with a one-row summary; any other JSON value
yields an empty registry and no summary. -/
theorem extract_classification :
    (∀ name l, extract_tables_from_response (Json.arr l) name = ([(name, l)], none)) ∧
    (∀ name kvs l, firstArrValue kvs = some l →
      extract_tables_from_response (Json.obj kvs) name = ([(name, l)], none)) ∧
    (∀ name pre k l post, (∀ kv ∈ pre, ∀ m, kv.2 ≠ Json.arr m) →
      extract_tables_from_response (Json.obj (pre ++ (k, Json.arr l) :: post)) name =
        ([(name, l)], none)) ∧
    (∀ name kvs, (∀ kv ∈ kvs, ∀ m, kv.2 ≠ Json.arr m) →
      extract_tables_from_response (Json.obj kvs) name =
        ([(name, [Json.obj kvs])],
          some (get_table_schema_summary [Json.obj kvs] name)) ∧
      (get_table_schema_summary [Json.obj kvs] name).rows = 1) ∧
    (∀ name, extract_tables_from_response Json.null name = ([], none)) ∧
    (∀ name b, extract_tables_from_response (Json.bool b) name = ([], none)) ∧
    (∀ name n, extract_tables_from_response (Json.num n) name = ([], none)) ∧
    (∀ name s, extract_tables_from_response (Json.str s) name = ([], none)) := by
  refine ⟨?_, ?_, ?_, ?_, ?_, ?_, ?_, ?_⟩
  · intro name l
    rfl
  · intro name kvs l h
    simp [extract_tables_from_response, h]
  · intro name pre k l post h
    simp [extract_tables_from_response, firstArrValue_first pre k l post h]
  · intro name kvs h
    exact ⟨by simp [extract_tables_from_response, firstArrValue_eq_none kvs h],
      by simp [get_table_schema_summary]⟩
  · intro name
    rfl
  · intro name b
    rfl
  · intro name n
    rfl
  · intro name s
    rfl

theorem extract_classification_witness :
    extract_tables_from_response
        (Json.obj [("components", Json.arr [Json.obj [("id", Json.num 1)],
          Json.obj [("id", Json.num 2)]])]) "active_users" =
      ([("active_users", [Json.obj [("id", Json.num 1)], Json.obj [("id", Json.num 2)]])],
        none) :=
  extract_classification.2.1 "active_users" _ _ (by decide)

/-- Claim C6 (amended): truncation boundary and whole-record subsequence —
a dataset whose serialization fits the budget (inclusive) is returned
untruncated and unchanged; otherwise the result is truncated, its data a
prefix of whole records of the original, `showing` its record count, the
schema computed over the full dataset, and its serialization fits the
budget whenever the budget is at least the two characters of an empty
serialized list. -/
theorem truncate_budget_boundary_and_subsequence :
    (∀ D name mc, (dumpsList D).length ≤ mc →
      truncate_for_context D name mc = ⟨false, name, D.length, D, none, none, none⟩) ∧
    (∀ D name mc, mc < (dumpsList D).length →
      (truncate_for_context D name mc).truncated = true ∧
      (∃ k, (truncate_for_context D name mc).data = D.take k) ∧
      (truncate_for_context D name mc).showing =
        some (truncate_for_context D name mc).data.length ∧
      (2 ≤ mc → (dumpsList (truncate_for_context D name mc).data).length ≤ mc) ∧
      (truncate_for_context D name mc).rows = D.length ∧
      (truncate_for_context D name mc).schema =
        some (get_table_schema_summary D name).schema) := by
  constructor
  · intro D name mc h
    simp [truncate_for_context, h]
  · intro D name mc h
    have hn : ¬((dumpsList D).length ≤ mc) := by omega
    refine ⟨by simp [truncate_for_context, hn], ?_, ?_, ?_, ?_, ?_⟩
    · obtain ⟨k, hk⟩ := takeWithin_prefix mc D []
      exact ⟨k, by simp [truncate_for_context, hn, hk]⟩
    · simp [truncate_for_context, hn]
    · intro h2
      have : (dumpsList ([] : List Json)).length ≤ mc := by
        simpa [dumpsList, jsonDumpsItems] using h2
      simpa [truncate_for_context, hn] using takeWithin_fits mc D [] this
    · simp [truncate_for_context, hn]
    · simp [truncate_for_context, hn]

theorem truncate_budget_boundary_witness :
    truncate_for_context [Json.obj [("id", Json.num 1)]] "test" 11 =
      ⟨false, "test", 1, [Json.obj [("id", Json.num 1)]], none, none, none⟩ :=
  truncate_budget_boundary_and_subsequence.1 [Json.obj [("id", Json.num 1)]] "test" 11
    (by decide)

/-- Claim C6 counterexample: with a budget of 1 character the truncated
view is the empty record list, whose serialization `[]` has length 2 and
so does not fit within `max_chars` — the fits-within-budget clause of the
claim fails for degenerate budgets. -/
theorem truncate_tiny_budget_counterexample :
    (truncate_for_context [Json.obj []] "t" 1).truncated = true ∧
    (truncate_for_context [Json.obj []] "t" 1).data = [] ∧
    ¬((dumpsList (truncate_for_context [Json.obj []] "t" 1).data).length ≤ 1) := by
  decide

theorem mentions_end (pre sub : String) : Mentions (pre ++ sub) sub :=
  ⟨pre, "", by simp⟩

/-- Mock capability of `test_numeric_done_field_zero_means_done`: `retry.next`
counts down 2, 1, 0 across attempts. -/
def reqCountdown : Nat → Option Json → ExecResult := fun a _ =>
  ⟨true, Json.obj [("retry", Json.obj [("next", Json.num (max 0 (3 - (a : Int))))]),
    ("trips", Json.arr [])], ""⟩

/-- Mock capability of `test_done_field_not_found_returns_error`: a response
without the polled field. -/
def reqNoField : Nat → Option Json → ExecResult := fun _ _ =>
  ⟨true, Json.obj [("status", Json.str "pending"), ("results", Json.arr [])], ""⟩

/-- Mock capability of `test_max_polls_error_shows_last_value`: never done. -/
def reqNeverDone : Nat → Option Json → ExecResult := fun _ _ =>
  ⟨true, Json.obj [("polling", Json.obj [("completed", Json.bool false)])], ""⟩

/-- Poll configuration for the never-done run. -/
def cfgNeverDone : PollCfg :=
  ⟨reqNeverDone, "POST", "/search/flights", "polling.completed", "true"⟩

/-- Mock capability of `test_auto_increment_polling_count`: done on the
third request. -/
def reqIncDone3 : Nat → Option Json → ExecResult := fun a _ =>
  ⟨true, Json.obj [("polling", Json.obj [("completed", Json.bool (decide (3 ≤ a)))])], ""⟩

/-- Mock capability whose field appears only on the first response. -/
def reqFieldVanishes : Nat → Option Json → ExecResult := fun a _ =>
  if a = 1 then ⟨true, Json.obj [("status", Json.str "pending")], ""⟩
  else ⟨true, Json.obj [], ""⟩

/-- Mock capability returning an empty successful response. -/
def reqOk : Nat → Option Json → ExecResult := fun _ _ => ⟨true, Json.obj [], ""⟩

/-- Claim C1: each attempt compares the extracted done-field value to
`done_value` by lowercased string form and terminates `DONE` exactly on
equality; with `doneField` values 2, 1, 0 across three attempts and
`doneValue` `"0"` the machine terminates `DONE` at attempt 3, not
before. -/
theorem poll_done_iff_lowercase_match :
    (∀ (cfg : PollCfg) (fuel attempt : Nat) (body : Json) (cur : Option Json)
        (log : List PollRecord) (a : Nat) (d : Json) (l : List PollRecord),
      pollGo cfg fuel attempt body cur log = (PollOutcome.done a d, l) →
      lowerStr (pyStrOpt (get_nested_value d cfg.done_field)) =
        lowerStr cfg.done_value) ∧
    (∀ (cfg : PollCfg) (fuel attempt : Nat) (body : Json) (cur : Option Json)
        (log : List PollRecord),
      (cfg.req (attempt + 1) (if truthy body then some body else none)).success = true →
      ¬(get_nested_value
          (cfg.req (attempt + 1) (if truthy body then some body else none)).data
          cfg.done_field = none ∧ attempt + 1 = 1) →
      lowerStr (pyStrOpt (get_nested_value
          (cfg.req (attempt + 1) (if truthy body then some body else none)).data
          cfg.done_field)) = lowerStr cfg.done_value →
      pollGo cfg (fuel + 1) attempt body cur log =
        (PollOutcome.done (attempt + 1)
          (cfg.req (attempt + 1) (if truthy body then some body else none)).data,
         log ++ [⟨cfg.method, cfg.path, (if truthy body then some body else none),
           attempt + 1⟩])) ∧
    poll_until_done reqCountdown "POST" "/flights/search" "retry.next" "0"
        FragInput.empty FragInput.empty FragInput.empty 10 =
      (PollOutcome.done 3 (Json.obj [("retry", Json.obj [("next", Json.num 0)]),
        ("trips", Json.arr [])]),
       [⟨"POST", "/flights/search", none, 1⟩, ⟨"POST", "/flights/search", none, 2⟩,
        ⟨"POST", "/flights/search", none, 3⟩]) := by
  refine ⟨?_, ?_, ?_⟩
  · intro cfg fuel attempt body cur log a d l h
    exact pollGo_done_match cfg fuel attempt body cur log a d l h
  · intro cfg fuel attempt body cur log hs hnm hd
    exact pollGo_step_done cfg fuel attempt body cur log hs hnm hd
  · decide

theorem poll_done_iff_lowercase_match_witness :
    lowerStr (pyStrOpt (get_nested_value (Json.obj [("retry", Json.obj [("next",
      Json.num 0)]), ("trips", Json.arr [])]) "retry.next")) = lowerStr "0" :=
  poll_done_iff_lowercase_match.1
    ⟨reqCountdown, "POST", "/flights/search", "retry.next", "0"⟩ 10 0 (Json.obj [])
    none [] 3
    (Json.obj [("retry", Json.obj [("next", Json.num 0)]), ("trips", Json.arr [])])
    [⟨"POST", "/flights/search", none, 1⟩, ⟨"POST", "/flights/search", none, 2⟩,
     ⟨"POST", "/flights/search", none, 3⟩]
    (by decide)

/-- Claim C2: a first successful response with no value at `done_field`
terminates `FIELD_MISSING` on attempt 1 with an error reporting the
requested path and the top-level keys present; a missing field on any
later attempt never triggers `FIELD_MISSING`. -/
theorem poll_field_missing_only_first_attempt :
    (∀ (cfg : PollCfg) (fuel : Nat) (body : Json),
      (cfg.req 1 (if truthy body then some body else none)).success = true →
      get_nested_value (cfg.req 1 (if truthy body then some body else none)).data
        cfg.done_field = none →
      pollGo cfg (fuel + 1) 0 body none [] =
        (PollOutcome.fieldMissing cfg.done_field
          (topKeys (cfg.req 1 (if truthy body then some body else none)).data),
         [⟨cfg.method, cfg.path, (if truthy body then some body else none), 1⟩])) ∧
    (∀ f ks, Mentions (renderFieldMissingError f ks) f ∧
      Mentions (renderFieldMissingError f ks) (pyReprKeyList ks)) ∧
    (∀ (cfg : PollCfg) (fuel attempt : Nat) (body : Json) (cur : Option Json)
        (log : List PollRecord) (f : String) (ks : List String), 1 ≤ attempt →
      (pollGo cfg fuel attempt body cur log).1 ≠ PollOutcome.fieldMissing f ks) := by
  refine ⟨?_, ?_, ?_⟩
  · intro cfg fuel body hs hmiss
    simp [pollGo, hs, hmiss]
  · intro f ks
    unfold renderFieldMissingError
    exact ⟨mentions_here _ _ _,
      mentions_left _ _ _ (mentions_left _ _ _ (mentions_end _ _))⟩
  · intro cfg fuel attempt body cur log f ks ha
    exact pollGo_no_fieldMissing_after_first cfg fuel attempt body cur log f ks ha

theorem poll_field_missing_only_first_attempt_witness :
    pollGo ⟨reqNoField, "POST", "/search/flights", "polling.completed", "true"⟩ 10 0
        (Json.obj []) none [] =
      (PollOutcome.fieldMissing "polling.completed" ["status", "results"],
       [⟨"POST", "/search/flights", none, 1⟩]) :=
  poll_field_missing_only_first_attempt.1
    ⟨reqNoField, "POST", "/search/flights", "polling.completed", "true"⟩ 9
    (Json.obj []) (by rfl) (by decide)

/-- Claim C3: with `maxAttempts = N` and responses that never match
`doneValue`, exactly `N` attempt records are logged; the record count
never exceeds `N` on any run (a failing request still logs its attempt
first); and the `EXHAUSTED` error mentions the last observed value, the
path, the expected value and the attempt count. -/
theorem poll_exhaustion_logs_exactly_max :
    (∀ (req : Nat → Option Json → ExecResult) (method path f v : String)
        (body pp qp : FragInput) (N : Nat),
      (poll_until_done req method path f v body pp qp N).2.length ≤ N) ∧
    (∀ (cfg : PollCfg) (fuel attempt : Nat) (body : Json) (cur : Option Json)
        (log : List PollRecord),
      (cfg.req (attempt + 1) (if truthy body then some body else none)).success = false →
      pollGo cfg (fuel + 1) attempt body cur log =
        (PollOutcome.requestFailed (attempt + 1)
          (cfg.req (attempt + 1) (if truthy body then some body else none)).error,
         log ++ [⟨cfg.method, cfg.path, (if truthy body then some body else none),
           attempt + 1⟩])) ∧
    (∀ (cfg : PollCfg) (N : Nat) (body : Json),
      1 ≤ N → incrOk body = true →
      (∀ a b, 1 ≤ a → a ≤ N → (cfg.req a b).success = true) →
      (∀ a b, 1 ≤ a → a ≤ N →
        lowerStr (pyStrOpt (get_nested_value (cfg.req a b).data cfg.done_field)) ≠
          lowerStr cfg.done_value) →
      (∀ b, get_nested_value (cfg.req 1 b).data cfg.done_field ≠ none) →
      ∃ last b,
        (pollGo cfg N 0 body none []).1 = PollOutcome.exhausted N last ∧
        last = get_nested_value (cfg.req N b).data cfg.done_field ∧
        (pollGo cfg N 0 body none []).2.length = N) ∧
    (∀ (N : Nat) (f v : String) (last : Option Json),
      Mentions (renderExhaustedError N f v last) (pyStrOpt last) ∧
      Mentions (renderExhaustedError N f v last) f ∧
      Mentions (renderExhaustedError N f v last) v ∧
      Mentions (renderExhaustedError N f v last) (toString N)) := by
  refine ⟨?_, ?_, ?_, ?_⟩
  · intro req method path f v body pp qp N
    have hb : ∀ (b : Json), (pollGo ⟨req, method, path, f, v⟩ N 0 b none []).2.length ≤ N := by
      intro b
      simpa using pollGo_log_length_le ⟨req, method, path, f, v⟩ N 0 b none []
    cases pp with
    | malformed m => simp [poll_until_done, parseFrag]
    | empty =>
      cases qp with
      | malformed m => simp [poll_until_done, parseFrag]
      | empty =>
        cases body with
        | malformed m => simp [poll_until_done, parseFrag]
        | empty => exact hb (Json.obj [])
        | parsed j => exact hb j
      | parsed q =>
        cases body with
        | malformed m => simp [poll_until_done, parseFrag]
        | empty => exact hb (Json.obj [])
        | parsed j => exact hb j
    | parsed p =>
      cases qp with
      | malformed m => simp [poll_until_done, parseFrag]
      | empty =>
        cases body with
        | malformed m => simp [poll_until_done, parseFrag]
        | empty => exact hb (Json.obj [])
        | parsed j => exact hb j
      | parsed q =>
        cases body with
        | malformed m => simp [poll_until_done, parseFrag]
        | empty => exact hb (Json.obj [])
        | parsed j => exact hb j
  · intro cfg fuel attempt body cur log hs
    exact pollGo_step_requestFailed cfg fuel attempt body cur log hs
  · intro cfg N body hN hok hsucc hmiss hfield
    obtain ⟨last, h1, h2, h3, h4⟩ := pollGo_exhausts cfg N N 0 body none []
      (by omega) hok
      (fun a b ha hb2 => hsucc a b (by omega) hb2)
      (fun a b ha hb2 => hmiss a b (by omega) hb2)
      (fun b _ _ => hfield b)
    obtain ⟨b, hb2⟩ := h4 (by omega)
    exact ⟨last, b, h1, hb2, by simpa using h2⟩
  · intro N f v last
    unfold renderExhaustedError
    refine ⟨?_, ?_, ?_, ?_⟩
    · exact mentions_left _ _ _ (mentions_left _ _ _ (mentions_left _ _ _
        (mentions_left _ _ _ (mentions_left _ _ _ (mentions_start _ _)))))
    · exact mentions_left _ _ _ (mentions_left _ _ _ (mentions_here _ _ _))
    · exact mentions_left _ _ _ (mentions_left _ _ _ (mentions_left _ _ _
        (mentions_left _ _ _ (mentions_left _ _ _ (mentions_left _ _ _
          (mentions_here _ _ _))))))
    · exact mentions_left _ _ _ (mentions_start _ _)

theorem poll_exhaustion_logs_exactly_max_witness :
    (pollGo cfgNeverDone 2 0 (Json.obj []) none []).1 =
      PollOutcome.exhausted 2 (some (Json.bool false)) ∧
    (pollGo cfgNeverDone 2 0 (Json.obj []) none []).2.length = 2 := by
  obtain ⟨last, b, h1, h2, h3⟩ :=
    poll_exhaustion_logs_exactly_max.2.2.1 cfgNeverDone 2 (Json.obj [])
      (by omega) (by decide) (fun a b _ _ => rfl)
      (fun a b _ _ => by
        change lowerStr (pyStrOpt (get_nested_value
          (Json.obj [("polling", Json.obj [("completed", Json.bool false)])])
          "polling.completed")) ≠ lowerStr "true"
        decide)
      (fun b => by
        change get_nested_value
          (Json.obj [("polling", Json.obj [("completed", Json.bool false)])])
          "polling.completed" ≠ none
        decide)
  refine ⟨?_, h3⟩
  rw [h1, h2]
  rfl

/-- Claim C4: a nested numeric `polling.count` in the request body is
incremented by 1 in place between attempts (before the next request);
with body count 1 and three attempts the bodies sent carry counts
1, 2, 3; a body without `polling.count` is never modified. -/
theorem poll_auto_increment_polling_count :
    (∀ kvs pkvs (n : Int), lookupKey kvs "polling" = some (Json.obj pkvs) →
      lookupKey pkvs "count" = some (Json.num n) →
      incrementPollingCount (Json.obj kvs) =
        Except.ok (Json.obj (setKey kvs "polling"
          (Json.obj (setKey pkvs "count" (Json.num (n + 1)))))) ∧
      lookupKey (setKey pkvs "count" (Json.num (n + 1))) "count" =
        some (Json.num (n + 1))) ∧
    (∀ kvs, lookupKey kvs "polling" = none →
      incrementPollingCount (Json.obj kvs) = Except.ok (Json.obj kvs)) ∧
    (∀ kvs pkvs, lookupKey kvs "polling" = some (Json.obj pkvs) →
      lookupKey pkvs "count" = none →
      incrementPollingCount (Json.obj kvs) = Except.ok (Json.obj kvs)) ∧
    (∀ kvs pkvs, lookupKey kvs "polling" = some (Json.obj pkvs) →
      lookupKey pkvs "count" = some Json.null →
      incrementPollingCount (Json.obj kvs) = Except.ok (Json.obj kvs)) ∧
    (∀ (cfg : PollCfg) (fuel attempt : Nat) (body body2 : Json) (cur : Option Json)
        (log : List PollRecord),
      (cfg.req (attempt + 1) (if truthy body then some body else none)).success = true →
      ¬(get_nested_value
          (cfg.req (attempt + 1) (if truthy body then some body else none)).data
          cfg.done_field = none ∧ attempt + 1 = 1) →
      lowerStr (pyStrOpt (get_nested_value
          (cfg.req (attempt + 1) (if truthy body then some body else none)).data
          cfg.done_field)) ≠ lowerStr cfg.done_value →
      incrementPollingCount body = Except.ok body2 →
      pollGo cfg (fuel + 1) attempt body cur log =
        pollGo cfg fuel (attempt + 1) body2
          (get_nested_value
            (cfg.req (attempt + 1) (if truthy body then some body else none)).data
            cfg.done_field)
          (log ++ [⟨cfg.method, cfg.path, (if truthy body then some body else none),
            attempt + 1⟩])) ∧
    poll_until_done reqIncDone3 "POST" "/search/flights" "polling.completed" "true"
        (FragInput.parsed (Json.obj [("polling", Json.obj [("count", Json.num 1)])]))
        FragInput.empty FragInput.empty 5 =
      (PollOutcome.done 3
        (Json.obj [("polling", Json.obj [("completed", Json.bool true)])]),
       [⟨"POST", "/search/flights",
          some (Json.obj [("polling", Json.obj [("count", Json.num 1)])]), 1⟩,
        ⟨"POST", "/search/flights",
          some (Json.obj [("polling", Json.obj [("count", Json.num 2)])]), 2⟩,
        ⟨"POST", "/search/flights",
          some (Json.obj [("polling", Json.obj [("count", Json.num 3)])]), 3⟩]) := by
  refine ⟨?_, ?_, ?_, ?_, ?_, ?_⟩
  · intro kvs pkvs n h1 h2
    exact ⟨by simp [incrementPollingCount, h1, h2], lookupKey_setKey_self pkvs "count" _⟩
  · intro kvs h
    simp [incrementPollingCount, h]
  · intro kvs pkvs h1 h2
    simp [incrementPollingCount, h1, h2]
  · intro kvs pkvs h1 h2
    simp [incrementPollingCount, h1, h2]
  · intro cfg fuel attempt body body2 cur log hs hnm hnd hinc
    exact pollGo_step_continue cfg fuel attempt body body2 cur log hs hnm hnd hinc
  · decide

theorem poll_auto_increment_polling_count_witness :
    incrementPollingCount (Json.obj [("polling", Json.obj [("count", Json.num 1)])]) =
      Except.ok (Json.obj (setKey [("polling", Json.obj [("count", Json.num 1)])]
        "polling" (Json.obj (setKey [("count", Json.num 1)] "count"
          (Json.num (1 + 1)))))) ∧
    lookupKey (setKey [("count", Json.num 1)] "count" (Json.num (1 + 1))) "count" =
      some (Json.num (1 + 1)) :=
  poll_auto_increment_polling_count.1 [("polling", Json.obj [("count", Json.num 1)])]
    [("count", Json.num 1)] 1 (by decide) (by decide)

/-- Claim C8 (amended): a malformed body supplied to `poll_until_done`
(with parseable path/query params) returns the distinct structured
`Invalid body JSON` failure before any request is issued or attempt
recorded; malformed `path_params` or `query_params` in either tool, and a
malformed body in `rest_call`, raise the JSON-decode exception out of the
tool instead of returning a structured failure. -/
theorem parse_failure_behavior :
    (∀ (req : Nat → Option Json → ExecResult) (method path f v msg : String)
        (pp qp : FragInput) (ppv qpv : Option Json) (N : Nat),
      parseFrag pp = Except.ok ppv → parseFrag qp = Except.ok qpv →
      poll_until_done req method path f v (FragInput.malformed msg) pp qp N =
        (PollOutcome.invalidBody ("Invalid body JSON: " ++ msg), [])) ∧
    (∀ (req : Nat → Option Json → ExecResult) (method path f v msg : String)
        (body qp : FragInput) (N : Nat),
      poll_until_done req method path f v body (FragInput.malformed msg) qp N =
        (PollOutcome.pyError msg, [])) ∧
    (∀ (req : Nat → Option Json → ExecResult) (method path f v msg : String)
        (body pp : FragInput) (ppv : Option Json) (N : Nat),
      parseFrag pp = Except.ok ppv →
      poll_until_done req method path f v body pp (FragInput.malformed msg) N =
        (PollOutcome.pyError msg, [])) ∧
    (∀ (msg : String) (qp body : FragInput),
      rest_call_parse (FragInput.malformed msg) qp body = RestCallParse.raised msg) ∧
    (∀ (msg : String) (pp : FragInput) (ppv : Option Json) (body : FragInput),
      parseFrag pp = Except.ok ppv →
      rest_call_parse pp (FragInput.malformed msg) body = RestCallParse.raised msg) ∧
    (∀ (msg : String) (pp qp : FragInput) (ppv qpv : Option Json),
      parseFrag pp = Except.ok ppv → parseFrag qp = Except.ok qpv →
      rest_call_parse pp qp (FragInput.malformed msg) = RestCallParse.raised msg) := by
  refine ⟨?_, ?_, ?_, ?_, ?_, ?_⟩
  · intro req method path f v msg pp qp ppv qpv N h1 h2
    simp [poll_until_done, h1, h2]
  · intro req method path f v msg body qp N
    simp [poll_until_done, parseFrag]
  · intro req method path f v msg body pp ppv N h1
    simp only [poll_until_done]
    rw [h1]
    simp [parseFrag]
  · intro msg qp body
    simp [rest_call_parse, parseFrag]
  · intro msg pp ppv body h1
    simp only [rest_call_parse]
    rw [h1]
    simp [parseFrag]
  · intro msg pp qp ppv qpv h1 h2
    simp only [rest_call_parse]
    rw [h1]
    simp only []
    rw [h2]
    simp [parseFrag]

theorem parse_failure_behavior_witness :
    poll_until_done reqOk "POST" "/search" "status" "true"
        (FragInput.malformed "Expecting value") FragInput.empty FragInput.empty 3 =
      (PollOutcome.invalidBody ("Invalid body JSON: " ++ "Expecting value"), []) :=
  parse_failure_behavior.1 reqOk "POST" "/search" "status" "true" "Expecting value"
    FragInput.empty FragInput.empty none none 3 rfl rfl

/-- Claim C8 counterexample: a malformed `query_params` fragment handed to
`poll_until_done` raises the decode exception out of the tool (`pyError`),
and a malformed fragment in `rest_call` likewise raises — neither returns
a structured failure naming the fragment. -/
theorem parse_failure_counterexample :
    poll_until_done reqOk "POST" "/search" "status" "true" FragInput.empty
        FragInput.empty (FragInput.malformed "Expecting value: line 1 column 1 (char 0)")
        3 =
      (PollOutcome.pyError "Expecting value: line 1 column 1 (char 0)", []) ∧
    rest_call_parse FragInput.empty
        (FragInput.malformed "Expecting value: line 1 column 1 (char 0)")
        FragInput.empty =
      RestCallParse.raised "Expecting value: line 1 column 1 (char 0)" := by
  exact ⟨rfl, rfl⟩

/-- Claim C10: on attempts after the first a missing or null value at
`done_field` does not terminate `FIELD_MISSING`; the missing value is
coerced to the string form of `None` and compared lowercased, so the
machine terminates `DONE` on that attempt exactly when `done_value`
lowercases to `"none"`, and otherwise keeps polling (until exhaustion in
the concrete run below). -/
theorem poll_missing_after_first_compares_none :
    (∀ (cfg : PollCfg) (fuel attempt : Nat) (body : Json) (cur : Option Json)
        (log : List PollRecord) (f : String) (ks : List String), 1 ≤ attempt →
      (pollGo cfg fuel attempt body cur log).1 ≠ PollOutcome.fieldMissing f ks) ∧
    lowerStr (pyStrOpt none) = "none" ∧
    (∀ (cfg : PollCfg) (fuel attempt : Nat) (body : Json) (cur : Option Json)
        (log : List PollRecord), 1 ≤ attempt →
      (cfg.req (attempt + 1) (if truthy body then some body else none)).success = true →
      get_nested_value
        (cfg.req (attempt + 1) (if truthy body then some body else none)).data
        cfg.done_field = none →
      lowerStr cfg.done_value = "none" →
      pollGo cfg (fuel + 1) attempt body cur log =
        (PollOutcome.done (attempt + 1)
          (cfg.req (attempt + 1) (if truthy body then some body else none)).data,
         log ++ [⟨cfg.method, cfg.path, (if truthy body then some body else none),
           attempt + 1⟩])) ∧
    (∀ (cfg : PollCfg) (fuel attempt : Nat) (body body2 : Json) (cur : Option Json)
        (log : List PollRecord), 1 ≤ attempt →
      (cfg.req (attempt + 1) (if truthy body then some body else none)).success = true →
      get_nested_value
        (cfg.req (attempt + 1) (if truthy body then some body else none)).data
        cfg.done_field = none →
      lowerStr cfg.done_value ≠ "none" →
      incrementPollingCount body = Except.ok body2 →
      pollGo cfg (fuel + 1) attempt body cur log =
        pollGo cfg fuel (attempt + 1) body2 none
          (log ++ [⟨cfg.method, cfg.path, (if truthy body then some body else none),
            attempt + 1⟩])) ∧
    poll_until_done reqFieldVanishes "GET" "/status" "status" "true"
        FragInput.empty FragInput.empty FragInput.empty 3 =
      (PollOutcome.exhausted 3 none,
       [⟨"GET", "/status", none, 1⟩, ⟨"GET", "/status", none, 2⟩,
        ⟨"GET", "/status", none, 3⟩]) := by
  have hnone : lowerStr (pyStrOpt none) = "none" := by decide
  refine ⟨?_, hnone, ?_, ?_, ?_⟩
  · intro cfg fuel attempt body cur log f ks ha
    exact pollGo_no_fieldMissing_after_first cfg fuel attempt body cur log f ks ha
  · intro cfg fuel attempt body cur log ha hs hm hv
    refine pollGo_step_done cfg fuel attempt body cur log hs ?_ ?_
    · rintro ⟨_, h1⟩
      omega
    · rw [hm, hnone, hv]
  · intro cfg fuel attempt body body2 cur log ha hs hm hv hinc
    have hstep := pollGo_step_continue cfg fuel attempt body body2 cur log hs
      (by rintro ⟨_, h1⟩; omega)
      (by rw [hm, hnone]; exact fun hEq => hv hEq.symm)
      hinc
    rw [hm] at hstep
    exact hstep
  · decide

theorem poll_missing_after_first_compares_none_witness :
    pollGo ⟨reqOk, "GET", "/s", "status", "None"⟩ 3 1 (Json.obj [])
        (some (Json.str "pending")) [] =
      (PollOutcome.done 2 (Json.obj []), [⟨"GET", "/s", none, 2⟩]) :=
  poll_missing_after_first_compares_none.2.2.1
    ⟨reqOk, "GET", "/s", "status", "None"⟩ 2 1 (Json.obj [])
    (some (Json.str "pending")) [] (by omega) rfl (by decide) (by decide)
